import Mathlib

/-!
Shallow embedding of `src/document_processor_online.py` (class
`DocumentProcessorOnline`): text cleaning, chunking, TF-IDF indexing,
cosine similarity search, and the export/import corpus store.

Modelling conventions:
* Python `float` values are modelled as exact rationals (`ℚ`).
* `math.log` and `math.sqrt` are irrational-valued, so they are passed in
  as explicit function parameters (`log`, `sq`); theorems that depend on
  their analytic behaviour take the needed facts as hypotheses
  (see `LogSpec`), which hold for the real logarithm on `[1, ∞)`.
* The Python `re` module is Unicode-aware; the model fixes the ASCII
  interpretation of the character class `\w` (letters, digits,
  underscore), which agrees with Python on all ASCII inputs used here.
* Python dictionaries are modelled as association lists; where CPython
  iterates a `set` in unspecified order the model fixes first-occurrence
  order (no claim depends on that order).
* The `while` loop of `split_into_chunks` is not structurally
  terminating (and indeed does not terminate on many inputs), so it is
  modelled with explicit fuel; `none` means the loop was still running
  when the fuel ran out.
-/

/- Batteries marks the `Rat` arithmetic operations `@[irreducible]`, which
stops `decide` from evaluating concrete rational arithmetic even though the
kernel can reduce it; restore the default reducibility so that concrete
instances of the definitions below can be checked by evaluation. -/
set_option allowUnsafeReducibility true

attribute [semireducible] Rat.mul Rat.inv Rat.div Rat.add Rat.sub Rat.normalize Rat.blt

namespace DocProc

/-- The literal Portuguese stop-word set of `DocumentProcessorOnline.__init__`
(`self.stop_words`), kept in source order; Python set-literal duplicates are
retained (harmless for membership). -/
def stopWords : List String :=
  ["a", "ao", "aos", "as", "à", "às", "ante", "após", "até", "com", "contra", "de", "desde",
   "em", "entre", "para", "per", "perante", "por", "sem", "sob", "sobre", "trás", "e", "mas",
   "nem", "ou", "logo", "pois", "porém", "contudo", "todavia", "entretanto", "senão", "que",
   "se", "como", "quando", "onde", "porque", "porquê", "qual", "quais", "quanto", "quantos",
   "quanta", "quantas", "quem", "o", "os", "a", "as", "um", "uma", "uns", "umas", "este",
   "esta", "estes", "estas", "esse", "essa", "esses", "essas", "aquele", "aquela", "aqueles",
   "aquelas", "isto", "isso", "aquilo", "eu", "tu", "ele", "ela", "nós", "vós", "eles", "elas",
   "me", "mim", "comigo", "te", "ti", "contigo", "se", "si", "consigo", "nos", "conosco",
   "vos", "convosco", "lhe", "lhes", "meu", "minha", "meus", "minhas", "teu", "tua", "teus",
   "tuas", "seu", "sua", "seus", "suas", "nosso", "nossa", "nossos", "nossas", "vosso",
   "vossa", "vossos", "vossas", "do", "da", "dos", "das", "no", "na", "nos", "nas", "pelo",
   "pela", "pelos", "pelas", "num", "numa", "nuns", "numas", "dum", "duma", "duns", "dumas",
   "ser", "estar", "ter", "haver", "ir", "vir", "dar", "fazer", "dizer", "ver", "saber",
   "poder", "querer", "ficar", "parecer", "deixar", "passar", "chegar", "trazer", "levar",
   "encontrar", "sentir", "continuar", "começar", "acabar", "entrar", "sair", "voltar",
   "muito", "mais", "menos", "bem", "mal", "melhor", "pior", "maior", "menor", "grande",
   "pequeno", "novo", "velho", "primeiro", "último", "outro", "mesmo", "todo", "cada",
   "algum", "nenhum", "qualquer", "certo", "tanto", "quanto", "pouco", "bastante", "demais",
   "já", "ainda", "sempre", "nunca", "hoje", "ontem", "amanhã", "agora", "depois", "antes",
   "aqui", "ali", "lá", "aí", "cá", "dentro", "fora", "cima", "baixo", "perto", "longe",
   "sim", "não", "talvez", "também", "só", "apenas", "inclusive", "até", "mesmo"]

/-- ASCII reading of the regex class `\w` (word character). -/
def isWordChar (c : Char) : Bool := c.isAlphanum || c == '_'

/-- Maximal runs of characters satisfying `p`; the accumulator holds the
current run reversed. -/
def runsAux (p : Char → Bool) : List Char → List Char → List (List Char)
  | [], cur => if cur.isEmpty then [] else [cur.reverse]
  | c :: rest, cur =>
    if p c then runsAux p rest (c :: cur)
    else if cur.isEmpty then runsAux p rest []
    else cur.reverse :: runsAux p rest []

/-- The matches of `\b\w+\b`: maximal runs of word characters. -/
def wordRuns (l : List Char) : List (List Char) := runsAux isWordChar l []

/-- Embedding of `tokenize` (src lines 171-190): lower-case, extract the `\b\w+\b` matches,
keep words of length > 2 that are not stop words. -/
def tokenize (text : String) : List String :=
  let words := (wordRuns (text.toList.map Char.toLower)).map fun cs => String.mk cs
  words.filter fun w => 2 < w.length && !(stopWords.contains w)

/-- Whitelist of the first regex of `clean_text`: word chars, whitespace and the
punctuation set. -/
def whitelistChar (c : Char) : Bool :=
  isWordChar c || c.isWhitespace ||
    c == '-' || c == '.' || c == ',' || c == ';' || c == ':' ||
    c == '!' || c == '?' || c == '(' || c == ')'

/-- First substitution of `clean_text`:
`re.sub` with the class `[^\w\s\-\.\,\;\:\!\?\(\)]` — every character outside
the whitelist becomes a single space. -/
def stripSpecial (l : List Char) : List Char :=
  l.map fun c => if whitelistChar c then c else ' '

/-- Second substitution of `clean_text`, `re.sub` with the pattern `\s+` —
every maximal whitespace run becomes one space. -/
def collapseWs : List Char → List Char
  | [] => []
  | [c] => if c.isWhitespace then [' '] else [c]
  | c :: d :: rest =>
    if c.isWhitespace && d.isWhitespace then collapseWs (d :: rest)
    else (if c.isWhitespace then ' ' else c) :: collapseWs (d :: rest)

/-- Python `str.split(sep)` for a single-character separator: split at every
occurrence, keeping empty pieces. -/
def splitOnChar (sep : Char) : List Char → List (List Char)
  | [] => [[]]
  | c :: rest =>
    if c = sep then [] :: splitOnChar sep rest
    else
      match splitOnChar sep rest with
      | [] => [[c]]
      | r :: rs => (c :: r) :: rs

/-- Python `str.strip()` on a character list. -/
def trimChars (l : List Char) : List Char :=
  ((l.dropWhile Char.isWhitespace).reverse.dropWhile Char.isWhitespace).reverse

/-- Embedding of `clean_text` (src lines 117-135): strip non-whitelisted characters to
spaces, collapse whitespace runs, split on newlines, keep only lines whose
stripped length exceeds 10, rejoin with newlines and strip. -/
def clean_text (text : String) : String :=
  let t2 := collapseWs (stripSpecial text.toList)
  let lines := splitOnChar '\n' t2
  let cleaned := (lines.map trimChars).filter fun l => 10 < l.length
  String.mk (trimChars (List.intercalate ['\n'] cleaned))

/-- Python `str.split()` with no argument: the maximal runs of
non-whitespace characters. -/
def splitWords (text : String) : List String :=
  (runsAux (fun c => !c.isWhitespace) text.toList []).map fun cs => String.mk cs

/-- Python `str.strip()` on a string. -/
def trimStr (s : String) : String := String.mk (trimChars s.toList)

/-- Python list slicing `l[a:b]` (negative indices count from the end,
indices clamped to the list bounds). -/
def pySlice (l : List String) (a b : Int) : List String :=
  let n : Int := l.length
  let a' := if a < 0 then max (n + a) 0 else min a n
  let b' := if b < 0 then max (n + b) 0 else min b n
  (l.take b'.toNat).drop a'.toNat

/-- The `while start < len(words)` loop of `split_into_chunks`
(src lines 155-167), with fuel; `none` means the fuel ran out with the loop
still running.  One step: take the window `words[start:end]`, append its
joined text when the stripped length exceeds 50, advance
`start = end - overlap`, break when `start >= len(words)`. -/
def chunkLoopF (words : List String) (cs ov : Int) :
    ℕ → Int → List String → Option (List String)
  | 0, _, _ => none
  | fuel + 1, start, acc =>
    if start < (words.length : Int) then
      let e := min (start + cs) (words.length : Int)
      let chunk := trimStr (String.intercalate " " (pySlice words start e))
      let acc2 := if 50 < chunk.length then acc ++ [chunk] else acc
      if e - ov ≥ (words.length : Int) then some acc2
      else chunkLoopF words cs ov fuel (e - ov) acc2
    else some acc

/-- Embedding of `split_into_chunks` (src lines 137-169).  Defaults are
`chunk_size = 500`, `overlap = 50`. -/
def split_into_chunks (fuel : ℕ) (text : String) (cs ov : Int) :
    Option (List String) :=
  let words := splitWords text
  if (words.length : Int) ≤ cs then some [text]
  else chunkLoopF words cs ov fuel 0 []

/-- First-occurrence deduplication (insertion order of the keys of a Python
`Counter` / `dict`); `seen` accumulates already-emitted elements. -/
def firstDedupAux : List String → List String → List String
  | [], _ => []
  | t :: rest, seen =>
    if seen.contains t then firstDedupAux rest seen
    else t :: firstDedupAux rest (t :: seen)

def firstDedup (l : List String) : List String := firstDedupAux l []

/-- Embedding of `calculate_tf` (src lines 192-213): empty mapping for an empty token
list, otherwise `count / total` per distinct token. -/
def calculate_tf (tokens : List String) : List (String × ℚ) :=
  if tokens.isEmpty then []
  else (firstDedup tokens).map fun t =>
    (t, (tokens.count t : ℚ) / (tokens.length : ℚ))

/-- Document frequency: in how many chunks (token lists) a term occurs
(the `term_chunk_count` tally of `calculate_idf`). -/
def df (cts : List (List String)) (t : String) : ℕ :=
  (cts.filter fun ck => decide (t ∈ ck)).length

/-- Embedding of `calculate_idf` (src lines 215-243): empty for an empty corpus,
otherwise `log (total_chunks / chunk_count)` for every observed term. -/
def calculate_idf (log : ℚ → ℚ) (cts : List (List String)) :
    List (String × ℚ) :=
  if cts.isEmpty then []
  else (firstDedup cts.flatten).map fun t =>
    (t, log ((cts.length : ℚ) / (df cts t : ℚ)))

/-- The TF-IDF vector of one token list given an IDF table: the loop
`for token, tf_score in tf_scores.items(): if token in self.idf_scores: ...`
that appears verbatim both in `calculate_tfidf_matrix` (src lines 270-281)
and in `search_similar_chunks` (src lines 420-426). -/
def tfidfVector (idf : List (String × ℚ)) (tokens : List String) :
    List (String × ℚ) :=
  (calculate_tf tokens).filterMap fun p =>
    match idf.lookup p.1 with
    | some i => some (p.1, p.2 * i)
    | none => none

/-- Vocabulary construction of `calculate_tfidf_matrix` (src lines 261-268):
each distinct observed token gets the next integer id, in encounter order. -/
def buildVocab (tokensList : List (List String)) : List (String × ℕ) :=
  (firstDedup tokensList.flatten).enum.map fun p => (p.2, p.1)

/-- Embedding of `calculate_tfidf_matrix` (src lines 245-283): tokenize every chunk,
compute the IDF table, the vocabulary and one TF-IDF vector per chunk.
Returns (matrix, vocabulary); the IDF table is `calculate_idf log
(chunks.map tokenize)` (stored into `self.idf_scores` by the source). -/
def calculate_tfidf_matrix (log : ℚ → ℚ) (chunks : List String) :
    List (List (String × ℚ)) × List (String × ℕ) :=
  let tokensList := chunks.map tokenize
  let idf := calculate_idf log tokensList
  (tokensList.map fun toks => tfidfVector idf toks, buildVocab tokensList)

/-- Keys of a sparse vector (`vec.keys()`). -/
def keys (v : List (String × ℚ)) : List String := v.map Prod.fst

/-- Dictionary lookup `vec[term]` (0 default is never used on common
terms). -/
def getVal (v : List (String × ℚ)) (t : String) : ℚ := (v.lookup t).getD 0

/-- The common terms `set(vec1.keys()) & set(vec2.keys())`. -/
def commonTerms (v1 v2 : List (String × ℚ)) : List String :=
  (keys v1).filter fun t => decide (t ∈ keys v2)

/-- The dot product `sum(vec1[term] * vec2[term] for term in common_terms)`. -/
def dotCommon (v1 v2 : List (String × ℚ)) : ℚ :=
  ((commonTerms v1 v2).map fun t => getVal v1 t * getVal v2 t).sum

/-- The square of the norm, `sum(score ** 2 for score in vec.values())`. -/
def normSq (v : List (String × ℚ)) : ℚ :=
  (v.map fun p => p.2 * p.2).sum

/-- Embedding of `cosine_similarity` (src lines 285-312), with the square root passed in
as `sq`: 0 when there is no common term, 0 when either norm vanishes,
otherwise the normalized dot product. -/
def cosine_similarity (sq : ℚ → ℚ) (v1 v2 : List (String × ℚ)) : ℚ :=
  if commonTerms v1 v2 = [] then 0
  else if sq (normSq v1) = 0 ∨ sq (normSq v2) = 0 then 0
  else dotCommon v1 v2 / (sq (normSq v1) * sq (normSq v2))

/-- Per-document bookkeeping record (`self.documents[filename]`,
src lines 368-375). -/
structure DocInfo where
  filename : String
  file_path : String
  processed_at : String
  chunk_count : ℕ
  file_size : ℕ
  file_type : String
deriving DecidableEq

/-- The statistics record `self.document_stats` (src lines 31-37). -/
structure DocumentStats where
  total_documents : ℕ
  total_chunks : ℕ
  total_words : ℕ
  vocabulary_size : ℕ
  last_processed : Option String
deriving DecidableEq

/-- The zeroed statistics record used by `__init__` / `clear_data` and as
the `import_data` default. -/
def defaultStats : DocumentStats :=
  { total_documents := 0, total_chunks := 0, total_words := 0,
    vocabulary_size := 0, last_processed := none }

/-- The mutable state of a `DocumentProcessorOnline` instance. -/
structure ProcState where
  documents : List (String × DocInfo)
  chunks : List String
  tfidf_matrix : List (List (String × ℚ))
  vocabulary : List (String × ℕ)
  idf_scores : List (String × ℚ)
  document_stats : DocumentStats
deriving DecidableEq

/-- A snapshot dictionary as consumed by `import_data`: any of the expected
keys may be absent (`none`). -/
structure Snapshot where
  documents : Option (List (String × DocInfo))
  chunks : Option (List String)
  tfidf_matrix : Option (List (List (String × ℚ)))
  vocabulary : Option (List (String × ℕ))
  idf_scores : Option (List (String × ℚ))
  document_stats : Option DocumentStats
  exported_at : Option String
deriving DecidableEq

/-- Embedding of `export_data` (src lines 471-486): every field present, plus the
export timestamp. -/
def export_data (s : ProcState) (now : String) : Snapshot :=
  { documents := some s.documents, chunks := some s.chunks,
    tfidf_matrix := some s.tfidf_matrix, vocabulary := some s.vocabulary,
    idf_scores := some s.idf_scores, document_stats := some s.document_stats,
    exported_at := some now }

/-- Embedding of `import_data` (src lines 488-517): every field is taken from the
snapshot via `data.get(key, default)`; the `except` branch is unreachable
for dictionary input, so the call returns `True` together with the new
state. -/
def import_data (s : ProcState) (data : Snapshot) : Bool × ProcState :=
  (true,
   { documents := data.documents.getD [],
     chunks := data.chunks.getD [],
     tfidf_matrix := data.tfidf_matrix.getD [],
     vocabulary := data.vocabulary.getD [],
     idf_scores := data.idf_scores.getD [],
     document_stats := data.document_stats.getD defaultStats })

/-- One entry of the `search_similar_chunks` result list. -/
structure SearchResult where
  chunk_index : ℕ
  content : String
  similarity : ℚ
deriving DecidableEq

/-- The scoring loop of `search_similar_chunks`
(`for i, chunk_tfidf in enumerate(self.tfidf_matrix)`, src lines 433-442):
keep entries with positive similarity; `self.chunks[i]` is only evaluated
for those, and an out-of-range access is the `IndexError` that the
enclosing `try` turns into an empty result (modelled as `none`). -/
def buildSims (sq : ℚ → ℚ) (qv : List (String × ℚ)) (chunks : List String) :
    ℕ → List (List (String × ℚ)) → Option (List SearchResult)
  | _, [] => some []
  | i, cv :: rest =>
    let sim := cosine_similarity sq qv cv
    if 0 < sim then
      match chunks[i]? with
      | none => none
      | some c =>
        (buildSims sq qv chunks (i + 1) rest).map fun l =>
          { chunk_index := i, content := c, similarity := sim } :: l
    else buildSims sq qv chunks (i + 1) rest

/-- Stable insertion keeping similarities in descending order: the new
element goes after every earlier element with similarity at least its own
(the order produced by the stable Python `sort(..., reverse=True)`). -/
def insertDesc (r : SearchResult) : List SearchResult → List SearchResult
  | [] => [r]
  | x :: xs =>
    if x.similarity ≤ r.similarity then r :: x :: xs
    else x :: insertDesc r xs

/-- The descending sort of the similarity records (stable, keyed on the similarity field). -/
def sortDesc : List SearchResult → List SearchResult
  | [] => []
  | x :: xs => insertDesc x (sortDesc xs)

/-- Embedding of `search_similar_chunks` (src lines 397-454): empty result when no
corpus is loaded, the query tokenizes to nothing, or the query vector has
no known term; otherwise score every chunk, keep positive similarities,
sort descending and truncate to `top_k`. -/
def search_similar_chunks (sq : ℚ → ℚ) (s : ProcState) (query : String)
    (top_k : ℕ) : List SearchResult :=
  if s.chunks.isEmpty || s.tfidf_matrix.isEmpty then []
  else
    let query_tokens := tokenize query
    if query_tokens.isEmpty then []
    else
      let query_tfidf := tfidfVector s.idf_scores query_tokens
      if query_tfidf.isEmpty then []
      else
        match buildSims sq query_tfidf s.chunks 0 s.tfidf_matrix with
        | none => []
        | some sims => (sortDesc sims).take top_k

/-- The facts about `math.log` (the real natural logarithm restricted to
`[1, ∞)`) that the IDF theorems use: non-negativity and vanishing exactly
at 1. -/
def LogSpec (log : ℚ → ℚ) : Prop :=
  (∀ x : ℚ, 1 ≤ x → 0 ≤ log x) ∧ ∀ x : ℚ, 1 ≤ x → (log x = 0 ↔ x = 1)

/-- A concrete computable function satisfying `LogSpec`, used to
instantiate counterexamples and witnesses. -/
def logLin : ℚ → ℚ := fun x => x - 1

/-- A processor state with a one-chunk indexed corpus (concrete witness
state for the search theorems). -/
def searchDemoState : ProcState :=
  { documents := [], chunks := ["xyz sample"], tfidf_matrix := [[("xyz", 1)]],
    vocabulary := [("xyz", 0)], idf_scores := [("xyz", 1)],
    document_stats := defaultStats }

/-- A non-empty prior processor state (concrete input for the import
counterexample). -/
def priorDemoState : ProcState :=
  { documents := [], chunks := ["prior chunk"], tfidf_matrix := [[("abc", 1)]],
    vocabulary := [("abc", 0)], idf_scores := [("abc", 1)],
    document_stats :=
      { total_documents := 1, total_chunks := 1, total_words := 2,
        vocabulary_size := 1, last_processed := none } }

/-- A snapshot missing every required structural field. -/
def emptySnapshot : Snapshot :=
  { documents := none, chunks := none, tfidf_matrix := none,
    vocabulary := none, idf_scores := none, document_stats := none,
    exported_at := none }

lemma logLin_spec : LogSpec logLin := by
  constructor
  · intro x hx
    simp only [logLin]
    linarith
  · intro x hx
    simp only [logLin]
    constructor
    · intro h; linarith
    · intro h; rw [h]; ring

/-- With fuel exhausted the loop reports `none`. -/
lemma chunkLoopF_zero (words : List String) (cs ov start : Int)
    (acc : List String) : chunkLoopF words cs ov 0 start acc = none := rfl

/-- Divergence of the chunking loop: as soon as the loop is entered at all
(`cs < len(words)`) with a positive overlap not exceeding the chunk size,
the window start gets trapped below `len(words)` (the advance
`start = end - overlap` can never reach `len(words)` because
`end ≤ len(words)` and `overlap > 0`), so the loop never terminates:
every fuel bound is exhausted. -/
lemma chunkLoopF_diverges (words : List String) (cs ov : Int)
    (h1 : 0 < ov) (h2 : ov ≤ cs) (h3 : cs < (words.length : Int)) :
    ∀ (fuel : ℕ) (start : Int) (acc : List String),
      0 ≤ start → start < (words.length : Int) →
      chunkLoopF words cs ov fuel start acc = none := by
  intro fuel
  induction fuel with
  | zero => intro start acc _ _; rfl
  | succ n ih =>
    intro start acc h0 hlt
    have hmin1 : min (start + cs) (words.length : Int) ≤ (words.length : Int) :=
      min_le_right _ _
    have hmin2 : cs ≤ min (start + cs) (words.length : Int) :=
      le_min (by omega) (by omega)
    simp only [chunkLoopF]
    rw [if_pos hlt, if_neg (by omega)]
    exact ih _ _ (by omega) (by omega)

/-- Claim C2: the code has no configuration guard at all.  For
`overlap = chunk_size` and any text with more than `chunk_size` words,
`split_into_chunks` is still running whatever fuel it is given — it hangs
instead of rejecting the malformed configuration. -/
theorem C2_overlap_eq_size_loops_forever (fuel : ℕ) (text : String) (cs : Int)
    (h1 : 0 < cs) (h2 : cs < ((splitWords text).length : Int)) :
    split_into_chunks fuel text cs cs = none := by
  simp only [split_into_chunks]
  rw [if_neg (by omega)]
  exact chunkLoopF_diverges _ _ _ h1 le_rfl h2 fuel 0 [] le_rfl (by omega)

/-- Witness: the failing input `split("aa bb cc", chunk_size=2, overlap=2)`
never returns, here checked with fuel 5. -/
theorem C2_overlap_eq_size_loops_forever_witness :
    split_into_chunks 5 "aa bb cc" 2 2 = none :=
  C2_overlap_eq_size_loops_forever 5 "aa bb cc" 2 (by decide) (by decide)

/-- Claim C5: whenever the while-loop is entered at all (word count
strictly greater than `chunk_size`, with the usual
`0 < overlap ≤ chunk_size` configuration, e.g. the defaults 500/50),
`split_into_chunks` never returns, so no chunk list reconstructing the
input is ever produced. -/
theorem C5_reconstruction_never_returned (fuel : ℕ) (text : String)
    (cs ov : Int) (h1 : 0 < ov) (h2 : ov ≤ cs)
    (h3 : cs < ((splitWords text).length : Int)) :
    split_into_chunks fuel text cs ov = none := by
  simp only [split_into_chunks]
  rw [if_neg (by omega)]
  exact chunkLoopF_diverges _ _ _ h1 h2 h3 fuel 0 [] le_rfl (by omega)

/-- Witness: the input `split("aa bb cc", chunk_size=2, overlap=1)` — a well-formed
configuration — never returns, here checked with fuel 7. -/
theorem C5_reconstruction_never_returned_witness :
    split_into_chunks 7 "aa bb cc" 2 1 = none :=
  C5_reconstruction_never_returned 7 "aa bb cc" 2 1 (by decide) (by decide)
    (by decide)

/-- Claim C10: when the whitespace-split word count is at most
`chunk_size`, `split_into_chunks` returns the single-element list holding
the original text verbatim, before the significance filter or the loop is
ever reached (so empty text yields `[""]`, not `[]`). -/
theorem C10_small_text_single_chunk (fuel : ℕ) (text : String) (cs ov : Int)
    (h : ((splitWords text).length : Int) ≤ cs) :
    split_into_chunks fuel text cs ov = some [text] := by
  simp only [split_into_chunks]
  rw [if_pos h]

/-- Witness: the empty text with the default configuration yields a single
empty chunk. -/
theorem C10_small_text_single_chunk_witness :
    split_into_chunks 0 "" 500 50 = some [""] :=
  C10_small_text_single_chunk 0 "" 500 50 (by decide)

/-- Claim C1 counterexample: importing a snapshot that is missing every
required structural field reports success (`True`) and wipes the prior
state (the prior chunk list is replaced by the empty default), exactly
what the claim says cannot happen. -/
theorem C1_counterexample :
    (import_data priorDemoState emptySnapshot).1 = true
    ∧ (import_data priorDemoState emptySnapshot).2.chunks = []
    ∧ priorDemoState.chunks = ["prior chunk"] := by
  exact ⟨rfl, rfl, rfl⟩

/-- Claim C1 amended: `import_data` performs no structural validation.
For every snapshot it returns success and replaces every field of the
processor state with the value held by the snapshot, substituting the empty
defaults for missing fields; the prior state is never preserved. -/
theorem C1_import_never_fails (s : ProcState) (d : Snapshot) :
    import_data s d =
      (true,
       { documents := d.documents.getD [],
         chunks := d.chunks.getD [],
         tfidf_matrix := d.tfidf_matrix.getD [],
         vocabulary := d.vocabulary.getD [],
         idf_scores := d.idf_scores.getD [],
         document_stats := d.document_stats.getD defaultStats }) := rfl

/-- Claim C9: an export/import round trip restores the corpus exactly —
same chunk texts in the same order, same TF-IDF vectors, same vocabulary,
same IDF table (and the restore reports success), whatever state the
receiving processor held before. -/
theorem C9_export_import_roundtrip (s0 s : ProcState) (t : String) :
    (import_data s0 (export_data s t)).2.chunks = s.chunks
    ∧ (import_data s0 (export_data s t)).2.tfidf_matrix = s.tfidf_matrix
    ∧ (import_data s0 (export_data s t)).2.vocabulary = s.vocabulary
    ∧ (import_data s0 (export_data s t)).2.idf_scores = s.idf_scores
    ∧ (import_data s0 (export_data s t)).2 = s
    ∧ (import_data s0 (export_data s t)).1 = true :=
  ⟨rfl, rfl, rfl, rfl, rfl, rfl⟩

lemma dropWhile_idem (p : Char → Bool) (l : List Char) :
    (l.dropWhile p).dropWhile p = l.dropWhile p := by
  induction l with
  | nil => rfl
  | cons c rest ih =>
    by_cases h : p c
    · simp [List.dropWhile_cons, h, ih]
    · simp [List.dropWhile_cons, h]

lemma dropWhile_eq_self_of_head (p : Char → Bool) (l : List Char)
    (h : ∀ c, l.head? = some c → p c = false) : l.dropWhile p = l := by
  cases l with
  | nil => rfl
  | cons c rest =>
    rw [List.dropWhile_cons, if_neg]
    simp [h c rfl]

lemma getLast?_dropWhile (p : Char → Bool) (l : List Char)
    (h : l.dropWhile p ≠ []) : (l.dropWhile p).getLast? = l.getLast? := by
  obtain ⟨t, ht⟩ := List.dropWhile_suffix (l := l) p
  conv_rhs => rw [← ht]
  rw [List.getLast?_append]
  cases hx : (l.dropWhile p).getLast? with
  | none => exact absurd (List.getLast?_eq_none_iff.mp hx) h
  | some c => rfl

/-- Stripping with `str.strip()` is idempotent. -/
lemma trimChars_idem (l : List Char) : trimChars (trimChars l) = trimChars l := by
  unfold trimChars
  have hd : ((l.dropWhile Char.isWhitespace).reverse.dropWhile
      Char.isWhitespace).reverse.dropWhile Char.isWhitespace =
      ((l.dropWhile Char.isWhitespace).reverse.dropWhile
        Char.isWhitespace).reverse := by
    apply dropWhile_eq_self_of_head
    intro c hc
    rw [List.head?_reverse] at hc
    by_cases hBe : (l.dropWhile Char.isWhitespace).reverse.dropWhile
        Char.isWhitespace = []
    · rw [hBe] at hc; exact absurd hc (by simp)
    · have h1 := getLast?_dropWhile Char.isWhitespace
        (l.dropWhile Char.isWhitespace).reverse hBe
      rw [List.getLast?_reverse, hc] at h1
      have h2 := List.head?_dropWhile_not Char.isWhitespace l
      rw [← h1] at h2
      exact h2
  rw [hd, List.reverse_reverse, dropWhile_idem]

/-- After the whitespace-collapse substitution no newline survives (every
output character is either a literal space or a non-whitespace input
character). -/
lemma newline_not_mem_collapseWs (l : List Char) : '\n' ∉ collapseWs l := by
  induction l using collapseWs.induct with
  | case1 => simp [collapseWs]
  | case2 c hw => simp [collapseWs, hw]
  | case3 c hw =>
    simp only [collapseWs, if_neg hw, List.mem_singleton]
    intro h
    rw [← h] at hw
    exact hw (by decide)
  | case4 c d rest hws ih =>
    simpa [collapseWs, hws] using ih
  | case5 c d rest hws ih =>
    simp only [collapseWs, if_neg hws, List.mem_cons]
    rintro (h | h)
    · by_cases hc : c.isWhitespace
      · rw [if_pos hc] at h; exact absurd h.symm (by decide)
      · rw [if_neg hc] at h
        rw [← h] at hc
        exact hc (by decide)
    · exact ih h

/-- Splitting on a character that does not occur returns the whole list
as the single piece. -/
lemma splitOnChar_eq_single (sep : Char) (l : List Char) (h : sep ∉ l) :
    splitOnChar sep l = [l] := by
  induction l with
  | nil => rfl
  | cons c rest ih =>
    have hc : ¬ c = sep := by
      intro hh
      exact h (hh ▸ List.mem_cons_self c rest)
    have hr : splitOnChar sep rest = [rest] :=
      ih fun hm => h (List.mem_cons_of_mem _ hm)
    simp only [splitOnChar, if_neg hc, hr]

/-- Claim C6 counterexample: in the input `"a\nabcdefghijkl"` the first
line has trimmed length 1 ≤ 10, so under the claim it must be removed
(output `"abcdefghijkl"`); the code keeps it, because the whitespace
collapse has already replaced the newline by a space. -/
theorem C6_counterexample :
    clean_text "a\nabcdefghijkl" = "a abcdefghijkl"
    ∧ "a abcdefghijkl" ≠ "abcdefghijkl" :=
  ⟨by decide, by decide⟩

/-- Claim C6 amended: `clean_text` strips non-whitelisted characters to
spaces and collapses every whitespace run — including newlines — to a
single space, so the subsequent short-line filter sees the whole text as
one line: it drops the entire text exactly when its trimmed length is
≤ 10, and never removes individual short input lines. -/
theorem C6_filter_is_whole_text (text : String) :
    clean_text text =
      (if 10 < (trimChars (collapseWs (stripSpecial text.toList))).length
       then String.mk (trimChars (collapseWs (stripSpecial text.toList)))
       else "")
    ∧ '\n' ∉ collapseWs (stripSpecial text.toList) := by
  refine ⟨?_, newline_not_mem_collapseWs _⟩
  simp only [clean_text, String.toList]
  rw [splitOnChar_eq_single _ _ (newline_not_mem_collapseWs _)]
  simp only [List.map_cons, List.map_nil]
  by_cases hlen :
      10 < (trimChars (collapseWs (stripSpecial text.data))).length
  · rw [if_pos hlen]
    have hf : List.filter (fun l => decide (10 < l.length))
        [trimChars (collapseWs (stripSpecial text.data))] =
        [trimChars (collapseWs (stripSpecial text.data))] := by
      simp [List.filter_cons, hlen]
    rw [hf]
    simp [List.intercalate, List.intersperse, trimChars_idem]
  · rw [if_neg hlen]
    have hf : List.filter (fun l => decide (10 < l.length))
        [trimChars (collapseWs (stripSpecial text.data))] = [] := by
      simp [List.filter_cons, hlen]
    rw [hf]
    simp [List.intercalate]
    rfl

lemma mem_of_mem_firstDedupAux :
    ∀ (l seen : List String) (t : String), t ∈ firstDedupAux l seen → t ∈ l := by
  intro l
  induction l with
  | nil => intro seen t h; exact absurd h (by simp [firstDedupAux])
  | cons a rest ih =>
    intro seen t h
    simp only [firstDedupAux] at h
    by_cases hs : seen.contains a
    · rw [if_pos hs] at h
      exact List.mem_cons_of_mem _ (ih _ _ h)
    · rw [if_neg hs] at h
      rcases List.mem_cons.mp h with h1 | h1
      · exact h1 ▸ List.mem_cons_self _ _
      · exact List.mem_cons_of_mem _ (ih _ _ h1)

lemma mem_firstDedup (l : List String) (t : String)
    (h : t ∈ firstDedup l) : t ∈ l :=
  mem_of_mem_firstDedupAux l [] t h

lemma lookup_map_pair (f : String → ℚ) :
    ∀ (l : List String) (t : String),
      (l.map fun s => (s, f s)).lookup t =
        if t ∈ l then some (f t) else none := by
  intro l
  induction l with
  | nil => intro t; rfl
  | cons a rest ih =>
    intro t
    by_cases h : t = a
    · subst h
      simp [List.lookup]
    · have hb : (t == a) = false := by simp [h]
      simp [List.lookup, hb, ih, h]

lemma mem_keys_calculate_tf {tokens : List String} {t : String}
    (h : t ∈ keys (calculate_tf tokens)) : t ∈ tokens := by
  unfold calculate_tf keys at h
  by_cases he : tokens.isEmpty
  · rw [if_pos he] at h
    simp at h
  · rw [if_neg he] at h
    simp only [List.map_map, Function.comp_def, List.map_id] at h
    simp only [List.mem_map] at h
    obtain ⟨a, ha, rfl⟩ := h
    exact mem_firstDedup _ _ ha

lemma mem_keys_tfidfVector {idf : List (String × ℚ)} {toks : List String}
    {t : String} (h : t ∈ keys (tfidfVector idf toks)) : t ∈ toks := by
  unfold tfidfVector keys at h
  simp only [List.mem_map, List.mem_filterMap] at h
  obtain ⟨p, ⟨q, hq, hmatch⟩, rfl⟩ := h
  cases hl : idf.lookup q.1 with
  | none => rw [hl] at hmatch; cases hmatch
  | some i =>
    rw [hl] at hmatch
    have hp : p = (q.1, q.2 * i) := by
      injection hmatch with h1
      exact h1.symm
    rw [hp]
    show q.1 ∈ toks
    exact mem_keys_calculate_tf (List.mem_map_of_mem Prod.fst hq)

lemma zip_map_self {α β : Type} (g : α → β) (l : List α) {p : α × β}
    (hp : p ∈ l.zip (l.map g)) : p.2 = g p.1 := by
  have h1 : l.zip (l.map g) = l.map fun a => (a, g a) := by
    have h0 := List.zip_map' id g l
    simpa using h0
  rw [h1] at hp
  obtain ⟨a, _, hpa⟩ := List.mem_map.mp hp
  rw [← hpa]

/-- Claim C3 counterexample: in the corpus `["abc", "abc"]` the token
`"abc"` occurs in every chunk, so its IDF is `log (2/2) = log 1 = 0`
(`logLin 1 = 0`, as for the real `ln`), and the TF-IDF vector of the first
chunk retains the entry `("abc", 0)` — a zero-weight entry is not
omitted. -/
theorem C3_counterexample :
    LogSpec logLin
    ∧ ("abc", (0:ℚ)) ∈ (calculate_tfidf_matrix logLin ["abc", "abc"]).1.headD [] :=
  ⟨logLin_spec, by decide⟩

/-- Claim C3 amended: every key of a TF-IDF vector of a chunk is a token
of the token list of its owning chunk, and every key of a query vector
built by the same loop is a token of the query token list (the zero-weight
omission part of the claim is dropped: zero-weight entries are kept, see
the counterexample). -/
theorem C3_keys_only_owner_tokens (log : ℚ → ℚ) (chunks : List String) :
    (∀ p ∈ chunks.zip (calculate_tfidf_matrix log chunks).1,
        ∀ t ∈ keys p.2, t ∈ tokenize p.1)
    ∧ ∀ (idf : List (String × ℚ)) (query t : String),
        t ∈ keys (tfidfVector idf (tokenize query)) → t ∈ tokenize query := by
  constructor
  · intro p hp t ht
    have hmat : (calculate_tfidf_matrix log chunks).1 =
        chunks.map fun c =>
          tfidfVector (calculate_idf log (chunks.map tokenize)) (tokenize c) := by
      simp [calculate_tfidf_matrix, List.map_map]
    rw [hmat] at hp
    have h2 := zip_map_self _ _ hp
    rw [h2] at ht
    exact mem_keys_tfidfVector ht
  · intro idf query t ht
    exact mem_keys_tfidfVector ht

/-- Witness for C3 amended at the corpus `["abc", "abc"]`: the key
`"abc"` of the vector of the first chunk is a token of that chunk. -/
theorem C3_keys_only_owner_tokens_witness : "abc" ∈ tokenize "abc" :=
  (C3_keys_only_owner_tokens logLin ["abc", "abc"]).1
    ("abc", [("abc", 0)]) (by decide) "abc" (by decide)

/-- Claim C8: every entry of the IDF table equals
`log (total_chunks / document_frequency)`, is non-negative, and vanishes
exactly when its token occurs in every chunk of the corpus (stated for
any `log` satisfying the facts `LogSpec` of the real logarithm). -/
theorem C8_idf_nonneg_zero_iff (log : ℚ → ℚ) (hlog : LogSpec log)
    (cts : List (List String)) (hne : cts ≠ []) (t : String) (v : ℚ)
    (hv : (calculate_idf log cts).lookup t = some v) :
    v = log ((cts.length : ℚ) / (df cts t : ℚ)) ∧ 0 ≤ v
    ∧ (v = 0 ↔ ∀ ck ∈ cts, t ∈ ck) := by
  unfold calculate_idf at hv
  rw [if_neg (by simp [hne]), lookup_map_pair] at hv
  by_cases hmem : t ∈ firstDedup cts.flatten
  swap
  · rw [if_neg hmem] at hv; cases hv
  rw [if_pos hmem] at hv
  have hveq := Option.some.inj hv
  subst hveq
  obtain ⟨ck0, hck0, htck0⟩ := List.mem_flatten.mp (mem_firstDedup _ _ hmem)
  have hdf1 : 0 < df cts t := by
    unfold df
    apply List.length_pos.mpr
    intro hnil
    have hin : ck0 ∈ cts.filter fun ck => decide (t ∈ ck) :=
      List.mem_filter.mpr ⟨hck0, by simp [htck0]⟩
    rw [hnil] at hin
    exact absurd hin (List.not_mem_nil _)
  have hdfN : df cts t ≤ cts.length := List.length_filter_le _ _
  have hdfQ : (0:ℚ) < (df cts t : ℚ) := by exact_mod_cast hdf1
  have hx : (1:ℚ) ≤ (cts.length : ℚ) / (df cts t : ℚ) := by
    rw [le_div_iff₀ hdfQ, one_mul]
    exact_mod_cast hdfN
  refine ⟨rfl, hlog.1 _ hx, ?_⟩
  rw [hlog.2 _ hx]
  constructor
  · intro h1
    have hdf : (cts.length : ℚ) = (df cts t : ℚ) :=
      (div_eq_one_iff_eq (ne_of_gt hdfQ)).mp h1
    have hdfn : cts.length = df cts t := by exact_mod_cast hdf
    have hfe : cts.filter (fun ck => decide (t ∈ ck)) = cts :=
      (List.filter_sublist _).eq_of_length hdfn.symm
    intro ck hck
    exact of_decide_eq_true (List.filter_eq_self.mp hfe ck hck)
  · intro hall
    have hfe : cts.filter (fun ck => decide (t ∈ ck)) = cts :=
      List.filter_eq_self.mpr fun ck hck => decide_eq_true (hall ck hck)
    unfold df
    rw [hfe]
    exact div_self (ne_of_gt (lt_of_lt_of_le hdfQ (by exact_mod_cast hdfN)))

/-- Witness for C8 at the one-chunk corpus `[["abc"]]`: the IDF of
`"abc"` is `log 1 = 0`, non-negative, and zero because the token occurs
in the (single) chunk of the corpus. -/
theorem C8_idf_nonneg_zero_iff_witness :
    (0:ℚ) = logLin ((([["abc"]] : List (List String)).length : ℚ) /
      (df [["abc"]] "abc" : ℚ))
    ∧ (0:ℚ) ≤ 0
    ∧ ((0:ℚ) = 0 ↔ ∀ ck ∈ ([["abc"]] : List (List String)), "abc" ∈ ck) :=
  C8_idf_nonneg_zero_iff logLin logLin_spec [["abc"]] (by decide) "abc" 0
    (by decide)

lemma mem_commonTerms {v1 v2 : List (String × ℚ)} {t : String} :
    t ∈ commonTerms v1 v2 ↔ t ∈ keys v1 ∧ t ∈ keys v2 := by
  simp [commonTerms, List.mem_filter]

lemma commonTerms_eq_nil_symm {v1 v2 : List (String × ℚ)} :
    commonTerms v1 v2 = [] ↔ commonTerms v2 v1 = [] := by
  simp only [List.eq_nil_iff_forall_not_mem, mem_commonTerms]
  constructor <;> · rintro h a ⟨ha1, ha2⟩; exact h a ⟨ha2, ha1⟩

lemma dotCommon_comm {v1 v2 : List (String × ℚ)} (h1 : (keys v1).Nodup)
    (h2 : (keys v2).Nodup) : dotCommon v1 v2 = dotCommon v2 v1 := by
  unfold dotCommon
  have hperm : (commonTerms v1 v2).Perm (commonTerms v2 v1) := by
    refine (List.perm_ext_iff_of_nodup (h1.filter _) (h2.filter _)).mpr ?_
    intro a
    simp only [List.mem_filter, decide_eq_true_eq]
    exact and_comm
  calc ((commonTerms v1 v2).map fun t => getVal v1 t * getVal v2 t).sum
      = ((commonTerms v2 v1).map fun t => getVal v1 t * getVal v2 t).sum :=
        (hperm.map _).sum_eq
    _ = ((commonTerms v2 v1).map fun t => getVal v2 t * getVal v1 t).sum := by
        rw [List.map_congr_left fun a _ => mul_comm (getVal v1 a) (getVal v2 a)]

lemma cosine_similarity_comm (sq : ℚ → ℚ) (v1 v2 : List (String × ℚ))
    (h1 : (keys v1).Nodup) (h2 : (keys v2).Nodup) :
    cosine_similarity sq v1 v2 = cosine_similarity sq v2 v1 := by
  unfold cosine_similarity
  by_cases hc : commonTerms v1 v2 = []
  · rw [if_pos hc, if_pos (commonTerms_eq_nil_symm.mp hc)]
  · rw [if_neg hc, if_neg fun hcc => hc (commonTerms_eq_nil_symm.mpr hcc)]
    by_cases hn : sq (normSq v1) = 0 ∨ sq (normSq v2) = 0
    · rw [if_pos hn, if_pos hn.symm]
    · rw [if_neg hn, if_neg fun hnn => hn hnn.symm]
      rw [dotCommon_comm h1 h2, mul_comm]

lemma commonTerms_self (v : List (String × ℚ)) : commonTerms v v = keys v :=
  List.filter_eq_self.mpr fun _ ha => decide_eq_true ha

lemma map_getVal_self (v : List (String × ℚ)) (h : (keys v).Nodup) :
    (keys v).map (fun t => getVal v t * getVal v t) =
      v.map fun p => p.2 * p.2 := by
  induction v with
  | nil => rfl
  | cons q rest ih =>
    have hk : keys (q :: rest) = q.1 :: keys rest := rfl
    rw [hk] at h
    obtain ⟨hq, hrest⟩ := List.nodup_cons.mp h
    rw [hk, List.map_cons, List.map_cons]
    congr 1
    · simp [getVal, List.lookup]
    · have hcong : (keys rest).map
          (fun t => getVal (q :: rest) t * getVal (q :: rest) t)
          = (keys rest).map fun t => getVal rest t * getVal rest t := by
        apply List.map_congr_left
        intro t ht
        have hne : (t == q.1) = false := by
          simp only [beq_eq_false_iff_ne, ne_eq]
          intro hteq
          exact hq (hteq ▸ ht)
        simp [getVal, List.lookup, hne]
      rw [hcong, ih hrest]

lemma dotCommon_self (v : List (String × ℚ)) (h : (keys v).Nodup) :
    dotCommon v v = normSq v := by
  unfold dotCommon normSq
  rw [commonTerms_self, map_getVal_self v h]

/-- Claim C4 counterexample: process the corpus `["abc", "abc"]`.  The
first chunk has the indexed token `"abc"` (the key list of its vector is
`["abc"]`), yet its TF-IDF vector is all-zero (IDF of a token occurring
in every chunk is 0), so the squared norm is 0 and the self-similarity
returned by `cosine_similarity` is 0, not 1.  (`id` stands for the square
root, which agrees with it at the only evaluated point: `sqrt 0 = 0`.) -/
theorem C4_counterexample :
    LogSpec logLin
    ∧ keys ((calculate_tfidf_matrix logLin ["abc", "abc"]).1.headD []) = ["abc"]
    ∧ normSq ((calculate_tfidf_matrix logLin ["abc", "abc"]).1.headD []) = 0
    ∧ cosine_similarity id
        ((calculate_tfidf_matrix logLin ["abc", "abc"]).1.headD [])
        ((calculate_tfidf_matrix logLin ["abc", "abc"]).1.headD []) = 0
    ∧ (0:ℚ) ≠ 1 :=
  ⟨logLin_spec, by decide, by decide, by decide, by decide⟩

/-- Claim C4 amended: cosine similarity is symmetric for all sparse
vectors (association lists with distinct keys), and the self-similarity
of a vector is exactly 1 provided its squared norm is non-zero (rather
than merely "the chunk has at least one indexed token": an all-zero
vector of an indexed chunk has self-similarity 0, see the
counterexample); `sq` is any square-root function, assumed correct on the
one value where it is used. -/
theorem C4_symmetry_and_self_similarity :
    (∀ (sq : ℚ → ℚ) (v1 v2 : List (String × ℚ)),
        (keys v1).Nodup → (keys v2).Nodup →
        cosine_similarity sq v1 v2 = cosine_similarity sq v2 v1)
    ∧ ∀ (sq : ℚ → ℚ) (v : List (String × ℚ)), (keys v).Nodup →
        sq (normSq v) * sq (normSq v) = normSq v → normSq v ≠ 0 →
        cosine_similarity sq v v = 1 := by
  constructor
  · exact cosine_similarity_comm
  · intro sq v h hsq hnz
    have hvne : v ≠ [] := by rintro rfl; exact hnz rfl
    have hkne : ¬ keys v = [] := by
      intro hk
      exact hvne (List.map_eq_nil_iff.mp hk)
    have hsqne : ¬ (sq (normSq v) = 0 ∨ sq (normSq v) = 0) := by
      rintro (h0 | h0) <;>
        · apply hnz
          rw [← hsq, h0, mul_zero]
    unfold cosine_similarity
    simp only [commonTerms_self]
    rw [if_neg hkne, if_neg hsqne, dotCommon_self v h, hsq]
    exact div_self hnz

/-- Witness for C4 amended: a pair of concrete one-entry vectors for
symmetry, and the vector `[("abc", 2)]` (squared norm 4, square root 2)
whose self-similarity is exactly 1. -/
theorem C4_symmetry_and_self_similarity_witness :
    cosine_similarity (fun _ => 2) [("abc", (1:ℚ))] [("abc", (2:ℚ))]
      = cosine_similarity (fun _ => 2) [("abc", 2)] [("abc", 1)]
    ∧ cosine_similarity (fun _ => 2) [("abc", (2:ℚ))] [("abc", 2)] = 1 :=
  ⟨C4_symmetry_and_self_similarity.1 (fun _ => 2) [("abc", 1)] [("abc", 2)]
      (by decide) (by decide),
   C4_symmetry_and_self_similarity.2 (fun _ => 2) [("abc", 2)]
      (by decide) (by decide) (by decide)⟩

lemma buildSims_pos (sq : ℚ → ℚ) (qv : List (String × ℚ))
    (chunks : List String) :
    ∀ (mat : List (List (String × ℚ))) (i : ℕ) (l : List SearchResult),
      buildSims sq qv chunks i mat = some l → ∀ r ∈ l, 0 < r.similarity := by
  intro mat
  induction mat with
  | nil =>
    intro i l h r hr
    rw [← Option.some.inj h] at hr
    exact absurd hr (List.not_mem_nil r)
  | cons cv rest ih =>
    intro i l h r hr
    simp only [buildSims] at h
    by_cases hs : 0 < cosine_similarity sq qv cv
    · rw [if_pos hs] at h
      cases hcv : chunks[i]? with
      | none => rw [hcv] at h; cases h
      | some c =>
        rw [hcv] at h
        obtain ⟨l', hl', rfl⟩ := Option.map_eq_some'.mp h
        rcases List.mem_cons.mp hr with h1 | h1
        · rw [h1]; exact hs
        · exact ih (i + 1) l' hl' r h1
    · rw [if_neg hs] at h
      exact ih (i + 1) l h r hr

lemma mem_insertDesc {r y : SearchResult} : ∀ {l : List SearchResult},
    y ∈ insertDesc r l ↔ y = r ∨ y ∈ l := by
  intro l
  induction l with
  | nil => simp [insertDesc]
  | cons x xs ih =>
    simp only [insertDesc]
    by_cases h : x.similarity ≤ r.similarity
    · rw [if_pos h]
      exact List.mem_cons
    · rw [if_neg h]
      simp only [List.mem_cons, ih]
      tauto

lemma sorted_insertDesc {r : SearchResult} : ∀ {l : List SearchResult},
    l.Pairwise (fun a b => b.similarity ≤ a.similarity) →
    (insertDesc r l).Pairwise fun a b => b.similarity ≤ a.similarity := by
  intro l
  induction l with
  | nil => intro _; simp [insertDesc]
  | cons x xs ih =>
    intro hp
    obtain ⟨hx, hxs⟩ := List.pairwise_cons.mp hp
    simp only [insertDesc]
    by_cases h : x.similarity ≤ r.similarity
    · rw [if_pos h]
      refine List.pairwise_cons.mpr ⟨?_, hp⟩
      intro y hy
      rcases List.mem_cons.mp hy with h1 | h1
      · rw [h1]; exact h
      · exact le_trans (hx y h1) h
    · rw [if_neg h]
      refine List.pairwise_cons.mpr ⟨?_, ih hxs⟩
      intro y hy
      rcases mem_insertDesc.mp hy with h1 | h1
      · rw [h1]; exact (not_le.mp h).le
      · exact hx y h1

lemma mem_sortDesc {y : SearchResult} : ∀ {l : List SearchResult},
    y ∈ sortDesc l ↔ y ∈ l := by
  intro l
  induction l with
  | nil => simp [sortDesc]
  | cons x xs ih => simp only [sortDesc, mem_insertDesc, ih, List.mem_cons]

lemma sorted_sortDesc : ∀ l : List SearchResult,
    (sortDesc l).Pairwise fun a b => b.similarity ≤ a.similarity := by
  intro l
  induction l with
  | nil => simp [sortDesc]
  | cons x xs ih => exact sorted_insertDesc ih

/-- The function `search_similar_chunks` either returns the empty list (no corpus,
empty tokenized query, fully out-of-vocabulary query, or the modelled
`IndexError` path) or the sorted, truncated positive-similarity list. -/
lemma search_eq_cases (sq : ℚ → ℚ) (s : ProcState) (query : String)
    (top_k : ℕ) :
    search_similar_chunks sq s query top_k = []
    ∨ ∃ sims,
        buildSims sq (tfidfVector s.idf_scores (tokenize query)) s.chunks 0
          s.tfidf_matrix = some sims
        ∧ search_similar_chunks sq s query top_k = (sortDesc sims).take top_k := by
  simp only [search_similar_chunks]
  by_cases h1 : (s.chunks.isEmpty || s.tfidf_matrix.isEmpty) = true
  · rw [if_pos h1]; exact Or.inl rfl
  · rw [if_neg h1]
    by_cases h2 : (tokenize query).isEmpty = true
    · rw [if_pos h2]; exact Or.inl rfl
    · rw [if_neg h2]
      by_cases h3 : (tfidfVector s.idf_scores (tokenize query)).isEmpty = true
      · rw [if_pos h3]; exact Or.inl rfl
      · rw [if_neg h3]
        cases hbs : buildSims sq (tfidfVector s.idf_scores (tokenize query))
            s.chunks 0 s.tfidf_matrix with
        | none => exact Or.inl rfl
        | some sims => exact Or.inr ⟨sims, rfl, rfl⟩

/-- Claim C7: every result list of `search_similar_chunks` contains only
entries with strictly positive similarity, is ordered by similarity
descending, and has length at most `top_k`. -/
theorem C7_search_ranked_positive_truncated (sq : ℚ → ℚ) (s : ProcState)
    (query : String) (top_k : ℕ) :
    (search_similar_chunks sq s query top_k).length ≤ top_k
    ∧ (search_similar_chunks sq s query top_k).Pairwise
        (fun a b => b.similarity ≤ a.similarity)
    ∧ ∀ r ∈ search_similar_chunks sq s query top_k, 0 < r.similarity := by
  rcases search_eq_cases sq s query top_k with h | ⟨sims, hbs, h⟩
  · rw [h]
    exact ⟨Nat.zero_le _, List.Pairwise.nil, by simp⟩
  · rw [h]
    refine ⟨?_, ?_, ?_⟩
    · rw [List.length_take]
      exact min_le_left _ _
    · exact List.Pairwise.sublist (List.take_sublist _ _) (sorted_sortDesc sims)
    · intro r hr
      exact buildSims_pos sq _ s.chunks s.tfidf_matrix 0 sims hbs r
        (mem_sortDesc.mp (List.mem_of_mem_take hr))

/-- Witness for C7 on a concrete one-chunk corpus: querying `"xyz"` with
`top_k = 3` yields a result list of length at most 3 whose (single) entry
has strictly positive similarity. -/
theorem C7_search_ranked_positive_truncated_witness :
    (search_similar_chunks id searchDemoState "xyz" 3).length ≤ 3
    ∧ (0:ℚ) < (SearchResult.mk 0 "xyz sample" 1).similarity :=
  ⟨(C7_search_ranked_positive_truncated id searchDemoState "xyz" 3).1,
   (C7_search_ranked_positive_truncated id searchDemoState "xyz" 3).2.2
     (SearchResult.mk 0 "xyz sample" 1) (by decide)⟩

end DocProc
